import Mathlib

/-!
Verification of the HOTP core of oath-toolkit: a shallow embedding of
`liboath/hotp.c` (OTP generation and window validation) and
`libhotp/usersfile.c` (the UsersFile credential store), together with
theorems settling the specification claims.

Modelling conventions:
* The HMAC-SHA1 primitive (`gc_hmac_sha1`) is an external collaborator and is
  passed in as a function `List Nat → List Nat → Option (List Nat)`
  (key → message → digest); `none` models `rc != GC_OK`.
* Bytes are `Nat` values; the C masks `& 0x0f`, `& 0x7f`, `& 0xff` become
  `% 16`, `% 128`, `% 256`.
* `uint64_t` arithmetic is `Nat` with `% 2 ^ 64` where overflow can occur;
  the loop counter `unsigned iter` of `oath_hotp_validate_callback` is a
  32-bit counter, modelled with `% 2 ^ 32` on increment.
* The validation loop is modelled with explicit fuel `window + 1` (the number
  of iterations the loop needs to exhaust the window); a `none` result means
  the loop has not returned within `window + 1` iterations.
* File I/O failures of the usersfile updater (seek, lock, create, write,
  rename, unlink) are modelled by explicit environment flags; a write budget
  `some k` means the k-th stream write fails, `none` means all writes succeed.
-/

deriving instance DecidableEq for Except

/-- Return codes of `liboath/hotp.c` (the `OATH_*` error codes that the
functions in scope can produce). -/
inductive OathErr where
  | cryptoError
  | invalidDigits
  | printfError
  | invalidOtp
  deriving DecidableEq

/-- The 8-byte big-endian serialization of the moving factor, from the
`counter[i] = (moving_factor >> ((sizeof (moving_factor) - i - 1) * 8)) & 0xFF`
loop of `oath_hotp_generate`. -/
def bigEndian64 (m : Nat) : List Nat :=
  (List.range 8).map (fun i => m / 2 ^ ((8 - i - 1) * 8) % 256)

/-- RFC 4226 dynamic truncation as written in `oath_hotp_generate`:
`offset = hs[19] & 0x0f`, then the 31-bit big-endian value of
`hs[offset..offset+3]` with the top bit of the first byte masked off. -/
def dynamicTruncate (hs : List Nat) : Nat :=
  let offset := hs.getD 19 0 % 16
  hs.getD offset 0 % 128 * 2 ^ 24 + hs.getD (offset + 1) 0 % 256 * 2 ^ 16
    + hs.getD (offset + 2) 0 % 256 * 2 ^ 8 + hs.getD (offset + 3) 0 % 256

/-- Decimal digit characters, fuelled recursion (any `fuel ≥ n` suffices). -/
def decCharsAux : Nat → Nat → List Char
  | 0, _ => []
  | _ + 1, 0 => []
  | fuel + 1, n + 1 =>
    decCharsAux fuel ((n + 1) / 10) ++ [Char.ofNat (48 + (n + 1) % 10)]

/-- Decimal digit characters of `n`, most significant first (empty for 0). -/
def decChars (n : Nat) : List Char := decCharsAux n n

/-- Decimal rendering of a nonnegative value, as `printf` renders `%ld`. -/
def natDecimal (n : Nat) : String :=
  if n = 0 then "0" else String.mk (decChars n)

/-- `snprintf`'s `"%.*ld"` conversion with precision `prec` applied to a
nonnegative value: the decimal rendering, left-padded with zeros to at least
`prec` characters. -/
def printfPrec (prec n : Nat) : String :=
  let s := natDecimal n
  String.mk (List.replicate (prec - s.length) '0') ++ s

/-- The final formatting block of `oath_hotp_generate`: render `S` with
precision `digits` and fail with `OATH_PRINTF_ERROR` when the rendered length
differs from `digits`. -/
def finishOtp (digits S : Nat) : Except OathErr String :=
  let out := printfPrec digits S
  if out.length ≠ digits then .error .printfError else .ok out

/-- `oath_hotp_generate` from `liboath/hotp.c`, with the HMAC-SHA1 primitive
passed in as `hmac` (key → message → digest, `none` = `GC_OK` failure).
The `add_checksum` and `truncation_offset` parameters of the C function are
ignored by its body and are omitted. -/
def oath_hotp_generate (hmac : List Nat → List Nat → Option (List Nat))
    (secret : List Nat) (moving_factor : Nat) (digits : Nat) :
    Except OathErr String :=
  match hmac secret (bigEndian64 moving_factor) with
  | none => .error .cryptoError
  | some hs =>
    let S := dynamicTruncate hs
    if digits = 6 then finishOtp 6 (S % 1000000)
    else if digits = 7 then finishOtp 7 (S % 10000000)
    else if digits = 8 then finishOtp 8 (S % 100000000)
    else .error .invalidDigits

/-- The `do { ... } while (window - iter++ > 0)` loop of
`oath_hotp_validate_callback`.  `iter` is the C `unsigned` (32-bit) counter,
so the increment wraps at `2 ^ 32`; the loop exits with `OATH_INVALID_OTP`
exactly when the `size_t` subtraction `window - iter` is zero, i.e. when
`iter = window`.  `fuel` bounds the number of iterations we unfold; `none`
means the loop has not returned within `fuel` iterations. -/
def hvcLoop (gen : Nat → Except OathErr String) (cmp : String → Bool)
    (start window : Nat) : Nat → Nat → Option (Except OathErr Nat)
  | _, 0 => none
  | iter, fuel + 1 =>
    match gen (start + iter) with
    | .error e => some (.error e)
    | .ok otp =>
      if cmp otp then some (.ok iter)
      else if iter = window then some (.error .invalidOtp)
      else hvcLoop gen cmp start window ((iter + 1) % 2 ^ 32) fuel

/-- `oath_hotp_validate_callback` from `liboath/hotp.c`: search the window
starting at `start_moving_factor`, comparing each generated OTP with the
caller-supplied comparison.  Fuel `window + 1` covers every terminating run
of the C loop (it exhausts the window); `none` means the loop is still
running after `window + 1` iterations. -/
def oath_hotp_validate_callback (hmac : List Nat → List Nat → Option (List Nat))
    (secret : List Nat) (start window digits : Nat) (cmp : String → Bool) :
    Option (Except OathErr Nat) :=
  hvcLoop (fun c => oath_hotp_generate hmac secret c digits) cmp
    start window 0 (window + 1)

/-- `oath_hotp_validate` from `liboath/hotp.c`: plaintext validation via
`strcmp_callback`.  The digit count is `strlen (otp)` (a `size_t`) converted
to the `unsigned` parameter `digits`, hence reduced `% 2 ^ 32`. -/
def oath_hotp_validate (hmac : List Nat → List Nat → Option (List Nat))
    (secret : List Nat) (start window : Nat) (otp : String) :
    Option (Except OathErr Nat) :=
  oath_hotp_validate_callback hmac secret start window (otp.length % 2 ^ 32)
    (fun test => otp == test)

/-! ## The UsersFile credential store, `libhotp/usersfile.c` -/

/-- Return codes of `libhotp/usersfile.c` (the `HOTP_*` codes reachable from
the functions in scope, plus codes propagated from the external hex decoder
and OTP validator). -/
inductive HotpRc where
  | ok
  | badPassword
  | unknownUser
  | replayedOtp
  | invalidCounter
  | invalidTimestamp
  | invalidOtp
  | cryptoError
  | invalidDigits
  | printfError
  | invalidHex
  | noSuchFile
  | fileSeekError
  | fileCreateError
  | fileLockError
  | fileRenameError
  | fileUnlinkError
  | timeError
  deriving DecidableEq

/-- The delimiter set of `usersfile.c`: `static const char *whitespace = " \t\r\n"`. -/
def ufWhite (c : Char) : Bool :=
  c = ' ' || c = '\t' || c = '\r' || c = '\n'

/-- Maximal runs of non-delimiter characters; `cur` is the (reversed) run
being accumulated. -/
def ufTokAux : List Char → List Char → List String
  | [], cur => if cur.isEmpty then [] else [String.mk cur.reverse]
  | c :: cs, cur =>
    if ufWhite c then
      if cur.isEmpty then ufTokAux cs []
      else String.mk cur.reverse :: ufTokAux cs []
    else ufTokAux cs (c :: cur)

/-- `strtok_r` over the `usersfile.c` whitespace set applied exhaustively:
the (non-empty) tokens of a line in order. -/
def ufTokens (s : String) : List String := ufTokAux s.data []

/-- `parse_type` from `usersfile.c`: map the type token to a digit count,
`0` meaning unrecognized. -/
def parse_type (str : String) : Nat :=
  if str = "HOTP/E/6" then 6
  else if str = "HOTP/E/7" then 7
  else if str = "HOTP/E/8" then 8
  else if str = "HOTP/E" then 6
  else if str = "HOTP" then 6
  else 0

/-- C-locale `isspace`, used by `strtoull` to skip leading whitespace. -/
def isSpaceC (c : Char) : Bool :=
  c = ' ' || c = '\t' || c = '\n' || c = '\x0b' || c = '\x0c' || c = '\r'

/-- Longest prefix of decimal digits, and the remainder. -/
def takeDigits : List Char → List Char × List Char
  | [] => ([], [])
  | c :: cs =>
    if c.isDigit then
      let p := takeDigits cs
      (c :: p.1, p.2)
    else ([], c :: cs)

/-- Value of a list of decimal digit characters, most significant first. -/
def digitsVal (ds : List Char) : Nat :=
  ds.foldl (fun a c => a * 10 + (c.toNat - 48)) 0

/-- `strtoull (p, &endptr, 10)`: skip C whitespace, optional sign, then a
maximal run of decimal digits.  Returns the converted `unsigned long long`
value (saturating at `ULLONG_MAX` on overflow, negated modulo `2 ^ 64` after
a minus sign) and the unconsumed suffix (`endptr`); if no digits are
consumed, `endptr` is the start of the input. -/
def strtoull10 (s : String) : Nat × String :=
  let cs := (s.data).dropWhile isSpaceC
  let signed : Bool × List Char :=
    match cs with
    | '+' :: r => (false, r)
    | '-' :: r => (true, r)
    | _ => (false, cs)
  let p := takeDigits signed.2
  if p.1.isEmpty then (0, s)
  else
    let v0 := digitsVal p.1
    let v1 := if v0 < 2 ^ 64 then v0 else 2 ^ 64 - 1
    let v2 := if signed.1 then (2 ^ 64 - v1) % 2 ^ 64 else v1
    (v2, String.mk p.2)

/-- External collaborators of `usersfile.c`: the hex secret decoder
(`hotp_hex2bin`), the OTP validator (`hotp_validate_otp`, whose negative
return codes are `.error` and whose nonnegative window offset is `.ok`),
and the libc time functions used on the timestamp field (`strp ts` is true
when `strptime` matches the full fixed format, and `mkt ts` is the `mktime`
result for the parsed `struct tm`, `-1` denoting failure). -/
structure UfEnv where
  hex2bin : String → Except HotpRc (List Nat)
  validate : List Nat → Nat → Nat → String → Except HotpRc Nat
  strp : String → Bool
  mkt : String → Int

/-- Outcome of `parse_usersfile`'s loop body on one line: either `continue`
(skip) or a `return` carrying the return code, the value stored through the
`last_otp` out-parameter on this line (if any), and the value stored through
`new_moving_factor` (only on `HOTP_OK`). -/
inductive LineOutcome where
  | skip
  | stop (rc : HotpRc) (lastOtp : Option Int) (nmf : Option Nat)
  deriving DecidableEq

/-- Tail of `parse_usersfile`'s loop body after the secret and moving factor
have been read: the optional last-OTP and timestamp tokens, the replay check,
and the call to `hotp_validate_otp`.  `wantLast` is whether the caller passed
a non-null `last_otp` pointer. -/
def parseTail (E : UfEnv) (otp : String) (window : Nat) (wantLast : Bool)
    (secret : List Nat) (smf : Nat) (prevOtp tsTok : Option String) :
    LineOutcome :=
  let step : Except LineOutcome (Option Int) :=
    match tsTok with
    | none => .ok none
    | some ts =>
      if E.strp ts = false then .error (.stop .invalidTimestamp none none)
      else if wantLast then
        let m := E.mkt ts
        if m = -1 then .error (.stop .invalidTimestamp (some m) none)
        else .ok (some m)
      else .ok none
  match step with
  | .error out => out
  | .ok lastSet =>
    if prevOtp = some otp then .stop .replayedOtp lastSet none
    else
      match E.validate secret smf window otp with
      | .error e => .stop e lastSet none
      | .ok off => .stop .ok lastSet (some ((smf + off) % 2 ^ 64))

/-- Middle of `parse_usersfile`'s loop body: read the key (secret) token,
decode it, then the optional moving-factor token. -/
def parseAfterPasswd (E : UfEnv) (otp : String) (window : Nat)
    (wantLast : Bool) (toks : List String) : LineOutcome :=
  match toks with
  | [] => .skip
  | keyTok :: toks4 =>
    match E.hex2bin keyTok with
    | .error e => .stop e none none
    | .ok secret =>
      match toks4 with
      | [] => parseTail E otp window wantLast secret 0 none none
      | mfTok :: toks5 =>
        let p := strtoull10 mfTok
        if p.2 ≠ "" then .stop .invalidCounter none none
        else parseTail E otp window wantLast secret p.1 toks5.head?
          (toks5.drop 1).head?

/-- One iteration of `parse_usersfile`'s `getline` loop, applied to the
whitespace tokens of the line: type token, username, password (read
unconditionally, checked only when `passwd` is supplied), then the rest. -/
def parseTokens (E : UfEnv) (username otp : String) (window : Nat)
    (passwd : Option String) (wantLast : Bool) (toks : List String) :
    LineOutcome :=
  match toks with
  | [] => .skip
  | typeTok :: toks1 =>
    if parse_type typeTok = 0 then .skip
    else
      match toks1 with
      | [] => .skip
      | userTok :: toks2 =>
        if userTok ≠ username then .skip
        else
          match passwd, toks2 with
          | some _, [] => .skip
          | some pw, pwTok :: toks3 =>
            if pwTok = "-" then .stop .badPassword none none
            else if pwTok ≠ pw then .stop .badPassword none none
            else parseAfterPasswd E otp window wantLast toks3
          | none, [] => parseAfterPasswd E otp window wantLast []
          | none, _ :: toks3 => parseAfterPasswd E otp window wantLast toks3

/-- Result of `parse_usersfile`: return code, the value left in the caller's
`last_otp` variable (if written), and the value left in `new_moving_factor`
(meaningful only on `.ok`; `0` stands for the untouched C variable). -/
structure ParseResult where
  rc : HotpRc
  lastOtp : Option Int
  nmf : Nat
  deriving DecidableEq

/-- `parse_usersfile` from `usersfile.c`: scan the lines with the loop body
`parseTokens`; the first line that returns wins, and end of file yields
`HOTP_UNKNOWN_USER`. -/
def parse_usersfile (E : UfEnv) (username otp : String) (window : Nat)
    (passwd : Option String) (wantLast : Bool) : List String → ParseResult
  | [] => ⟨.unknownUser, none, 0⟩
  | line :: rest =>
    match parseTokens E username otp window passwd wantLast (ufTokens line) with
    | .skip => parse_usersfile E username otp window passwd wantLast rest
    | .stop rc ts mf => ⟨rc, ts, mf.getD 0⟩

/-- The replacement record written by `update_usersfile2`:
`"%s\t%s\t%s\t%s\t%llu\t%s\t%s\n"` with the line's type token, the target
username, the line's password and secret tokens (`"-"` when absent), the new
moving factor (an `unsigned long long`), the accepted OTP and the fresh
timestamp. -/
def formatRecord (ty username pw secret : String) (nmf : Nat)
    (otp ts : String) : String :=
  ty ++ "\t" ++ username ++ "\t" ++ pw ++ "\t" ++ secret ++ "\t"
    ++ natDecimal (nmf % 2 ^ 64) ++ "\t" ++ otp ++ "\t" ++ ts ++ "\n"

/-- Declarative per-line description of the rewrite performed by
`update_usersfile2`: lines with no tokens are dropped, lines whose second
token differs from the username (or which have no second token) are copied
verbatim, and every line whose second token equals the username is replaced
by the freshly formatted record. -/
def update2Line (username otp ts : String) (nmf : Nat) (line : String) :
    Option String :=
  match ufTokens line with
  | [] => none
  | _ :: [] => some line
  | typeTok :: userTok :: ltoks2 =>
    if userTok ≠ username then some line
    else some (formatRecord typeTok username (ltoks2.getD 0 "-")
      (ltoks2.getD 1 "-") nmf otp ts)

/-- `update_usersfile2` from `usersfile.c`: stream the source lines to the
output file, replacing matched records.  `budget` models stream-write
failures: `some k` makes the k-th `fputs`/`fprintf` fail (returning
`HOTP_PRINTF_ERROR`), `none` makes every write succeed.  Returns the return
code and the lines successfully written. -/
def update_usersfile2 (username otp ts : String) (nmf : Nat) :
    Option Nat → List String → HotpRc × List String
  | _, [] => (.ok, [])
  | budget, line :: rest =>
    match ufTokens line with
    | [] => update_usersfile2 username otp ts nmf budget rest
    | typeTok :: ltoks =>
      let outLine :=
        match ltoks with
        | [] => line
        | userTok :: ltoks2 =>
          if userTok ≠ username then line
          else formatRecord typeTok username (ltoks2.getD 0 "-")
            (ltoks2.getD 1 "-") nmf otp ts
      match budget with
      | some 0 => (.printfError, [])
      | some (b + 1) =>
        let r := update_usersfile2 username otp ts nmf (some b) rest
        (r.1, outLine :: r.2)
      | none =>
        let r := update_usersfile2 username otp ts nmf none rest
        (r.1, outLine :: r.2)

/-- Filesystem/locking outcomes for one run of `update_usersfile`: whether
the rewind, lock-file creation, lock acquisition, output-file creation,
rename and unlink succeed, and the stream-write budget for
`update_usersfile2`. -/
structure UpdateEnv where
  seekOk : Bool
  lockCreateOk : Bool
  lockOk : Bool
  newCreateOk : Bool
  writeBudget : Option Nat
  renameOk : Bool
  unlinkOk : Bool

/-- `update_usersfile` from `usersfile.c`.  Takes the current content of the
live credential file and returns the return code together with the content of
the live file afterwards.  Note that the C function performs the
`rename (newfilename, usersfile)` regardless of the return code of
`update_usersfile2`. -/
def update_usersfile (env : UpdateEnv) (username otp ts : String) (nmf : Nat)
    (lines : List String) : HotpRc × List String :=
  if env.seekOk = false then (.fileSeekError, lines)
  else if env.lockCreateOk = false then (.fileCreateError, lines)
  else if env.lockOk = false then (.fileLockError, lines)
  else if env.newCreateOk = false then (.fileCreateError, lines)
  else
    let r := update_usersfile2 username otp ts nmf env.writeBudget lines
    if env.renameOk = false then (.fileRenameError, lines)
    else if env.unlinkOk = false then (.fileUnlinkError, r.2)
    else (r.1, r.2)

/-- `hotp_authenticate_usersfile` from `usersfile.c`.  `file` is the content
of the credential file (`none` when `fopen` fails), `nowTs` the local
timestamp `strftime` produces for the current time (`none` when `time` or
`localtime_r` fails), `wantLast` whether the caller passed a non-null
`last_otp` pointer.  Returns the return code, the value left in the caller's
`last_otp` variable, and the resulting content of the credential file. -/
def hotp_authenticate_usersfile (E : UfEnv) (env : UpdateEnv)
    (nowTs : Option String) (file : Option (List String))
    (username otp : String) (window : Nat) (passwd : Option String)
    (wantLast : Bool) : HotpRc × Option Int × Option (List String) :=
  match file with
  | none => (.noSuchFile, none, none)
  | some lines =>
    let pr := parse_usersfile E username otp window passwd wantLast lines
    if pr.rc = .ok then
      match nowTs with
      | none => (.timeError, pr.lastOtp, some lines)
      | some ts =>
        if ts.length ≠ 20 then (.timeError, pr.lastOtp, some lines)
        else
          let r := update_usersfile env username otp ts pr.nmf lines
          (r.1, pr.lastOtp, some r.2)
    else (pr.rc, pr.lastOtp, some lines)

/-! ## Concrete collaborator instances used in counterexamples and witnesses -/

/-- An HMAC returning the all-zero 20-byte digest for every input. -/
def hmacZero : List Nat → List Nat → Option (List Nat) :=
  fun _ _ => some (List.replicate 20 0)

/-- A 20-byte digest whose dynamic truncation is 1. -/
def dOneDigest : List Nat := [0, 0, 0, 1] ++ List.replicate 16 0

/-- An HMAC distinguishing messages by their fourth byte (the byte of the
big-endian counter that carries bit 32): digest `dOneDigest` when it is
nonzero, the all-zero digest otherwise. -/
def hmacCE : List Nat → List Nat → Option (List Nat) :=
  fun _ msg =>
    if msg.getD 3 0 = 0 then some (List.replicate 20 0) else some dOneDigest

/-- An HMAC embedding the low byte of the big-endian counter into the digest,
so that small counters produce pairwise distinct OTPs. -/
def hmacCtr : List Nat → List Nat → Option (List Nat) :=
  fun _ msg => some ([0, 0, 0, msg.getD 7 0] ++ List.replicate 16 0)

/-- A presented OTP string of length `2 ^ 32 + 6`. -/
def bigOtp : String := String.mk (List.replicate (2 ^ 32 + 6) '0')

/-- A usersfile environment whose validator always reports a match at window
offset 0. -/
def Eok : UfEnv :=
  ⟨fun _ => .ok [171], fun _ _ _ _ => .ok 0, fun _ => true, fun _ => 7⟩

/-- A usersfile environment whose validator always reports a match at window
offset 1. -/
def Eoff1 : UfEnv :=
  ⟨fun _ => .ok [171], fun _ _ _ _ => .ok 1, fun _ => true, fun _ => 7⟩

/-- A usersfile environment whose validator never matches, and whose time
parser accepts exactly one fixed timestamp, mapping it to 1577836800. -/
def Erep : UfEnv :=
  ⟨fun _ => .ok [171], fun _ _ _ _ => .error .invalidOtp,
    fun s => s == "2020-01-01T00:00:00L", fun _ => 1577836800⟩

/-- Update environment where every filesystem operation succeeds. -/
def envAllOk : UpdateEnv := ⟨true, true, true, true, none, true, true⟩

/-- Update environment where the first stream write of the rewrite fails and
every other filesystem operation succeeds. -/
def envW0 : UpdateEnv := ⟨true, true, true, true, some 0, true, true⟩

/-! ## Lemmas about decimal rendering and `oath_hotp_generate` -/

theorem length_decCharsAux {d : Nat} :
    ∀ fuel n, n ≤ fuel → n < 10 ^ d → (decCharsAux fuel n).length ≤ d := by
  induction d with
  | zero =>
    intro fuel n hle h
    have hn : n = 0 := by simpa using h
    subst hn
    cases fuel <;> simp [decCharsAux]
  | succ d ih =>
    intro fuel n hle h
    match fuel, n with
    | 0, _ =>
      simp [decCharsAux]
    | fuel + 1, 0 =>
      simp [decCharsAux]
    | fuel + 1, n + 1 =>
      have h10 : (n + 1) / 10 < 10 ^ d := by
        apply Nat.div_lt_of_lt_mul
        rw [Nat.pow_succ] at h
        omega
      have hle' : (n + 1) / 10 ≤ fuel := by
        have := Nat.div_lt_self (Nat.succ_pos n) (by norm_num : (1 : Nat) < 10)
        omega
      have := ih fuel ((n + 1) / 10) hle' h10
      simp only [decCharsAux, List.length_append, List.length_cons,
        List.length_nil]
      omega

theorem length_decChars {d n : Nat} (h : n < 10 ^ d) : (decChars n).length ≤ d :=
  length_decCharsAux n n (le_refl n) h

theorem length_natDecimal {d n : Nat} (hd : 1 ≤ d) (h : n < 10 ^ d) :
    (natDecimal n).length ≤ d := by
  unfold natDecimal
  split
  · simpa using hd
  · simpa [String.length] using length_decChars h

theorem printfPrec_length (prec n : Nat) :
    (printfPrec prec n).length = max prec (natDecimal n).length := by
  unfold printfPrec
  rw [String.length_append]
  simp only [String.length, List.length_replicate]
  omega

theorem finishOtp_ok {digits S : Nat} (hd : 1 ≤ digits) (hS : S < 10 ^ digits) :
    finishOtp digits S = .ok (printfPrec digits S) ∧
      (printfPrec digits S).length = digits := by
  have hlen : (printfPrec digits S).length = digits := by
    rw [printfPrec_length]
    have := length_natDecimal hd hS
    omega
  refine ⟨?_, hlen⟩
  unfold finishOtp
  simp [hlen]

theorem dynamicTruncate_lt_2pow31 (hs : List Nat) : dynamicTruncate hs < 2 ^ 31 := by
  unfold dynamicTruncate
  have h0 : hs.getD (hs.getD 19 0 % 16) 0 % 128 < 128 := Nat.mod_lt _ (by norm_num)
  have h1 : hs.getD (hs.getD 19 0 % 16 + 1) 0 % 256 < 256 := Nat.mod_lt _ (by norm_num)
  have h2 : hs.getD (hs.getD 19 0 % 16 + 2) 0 % 256 < 256 := Nat.mod_lt _ (by norm_num)
  have h3 : hs.getD (hs.getD 19 0 % 16 + 3) 0 % 256 < 256 := Nat.mod_lt _ (by norm_num)
  simp only []
  omega

theorem oath_hotp_generate_ok {hmac : List Nat → List Nat → Option (List Nat)}
    {secret : List Nat} {m digits : Nat} {hs : List Nat}
    (hh : hmac secret (bigEndian64 m) = some hs)
    (hd : digits = 6 ∨ digits = 7 ∨ digits = 8) :
    oath_hotp_generate hmac secret m digits =
      .ok (printfPrec digits (dynamicTruncate hs % 10 ^ digits)) ∧
    (printfPrec digits (dynamicTruncate hs % 10 ^ digits)).length = digits := by
  unfold oath_hotp_generate
  rw [hh]
  rcases hd with h | h | h <;> subst h <;> simp only [] <;> norm_num
  · exact finishOtp_ok (by norm_num) (Nat.mod_lt _ (by norm_num))
  · exact finishOtp_ok (by norm_num) (Nat.mod_lt _ (by norm_num))
  · exact finishOtp_ok (by norm_num) (Nat.mod_lt _ (by norm_num))

theorem oath_hotp_generate_bad_digits
    {hmac : List Nat → List Nat → Option (List Nat)}
    {secret : List Nat} {m digits : Nat} {hs : List Nat}
    (hh : hmac secret (bigEndian64 m) = some hs)
    (hd : ¬(digits = 6 ∨ digits = 7 ∨ digits = 8)) :
    oath_hotp_generate hmac secret m digits = .error .invalidDigits := by
  unfold oath_hotp_generate
  rw [hh]
  push_neg at hd
  simp [hd.1, hd.2.1, hd.2.2]

/-- C3: assuming the HMAC primitive succeeds with a 20-byte digest `hs`, for
digits in {6, 7, 8} `oath_hotp_generate` returns the decimal rendering of
`dynamicTruncate hs mod 10 ^ digits` left-padded with zeros to exactly
`digits` characters, where `dynamicTruncate` extracts the 31-bit big-endian
value at offset `hs[19] & 0x0F` with the top bit of its first byte masked to
zero; for every other digits value it fails with `OATH_INVALID_DIGITS`. -/
theorem C3_generate_truncation
    (hmac : List Nat → List Nat → Option (List Nat)) (secret : List Nat)
    (m : Nat) (hs : List Nat)
    (hh : hmac secret (bigEndian64 m) = some hs) (_hlen : hs.length = 20) :
    dynamicTruncate hs < 2 ^ 31 ∧
    (∀ digits, digits = 6 ∨ digits = 7 ∨ digits = 8 →
      oath_hotp_generate hmac secret m digits =
        .ok (printfPrec digits (dynamicTruncate hs % 10 ^ digits)) ∧
      (printfPrec digits (dynamicTruncate hs % 10 ^ digits)).length = digits) ∧
    (∀ digits, ¬(digits = 6 ∨ digits = 7 ∨ digits = 8) →
      oath_hotp_generate hmac secret m digits = .error .invalidDigits) := by
  refine ⟨dynamicTruncate_lt_2pow31 hs, ?_, ?_⟩
  · intro digits hd
    exact oath_hotp_generate_ok hh hd
  · intro digits hd
    exact oath_hotp_generate_bad_digits hh hd

/-- Witness for C3 at a concrete input: the all-zero digest and digits 6
produce the OTP `"000000"`, and digits 5 produce `OATH_INVALID_DIGITS`. -/
theorem C3_generate_truncation_witness :
    oath_hotp_generate hmacZero [] 0 6 = .ok "000000" ∧
    oath_hotp_generate hmacZero [] 0 5 = .error .invalidDigits := by
  have h := C3_generate_truncation hmacZero [] 0 (List.replicate 20 0) rfl (by decide)
  constructor
  · have h6 := (h.2.1 6 (by norm_num)).1
    simpa using h6
  · exact h.2.2 5 (by norm_num)

/-- C9: when the MAC succeeds and digits is 6, 7 or 8, the truncated value
reduced `mod 10 ^ digits` is strictly below `10 ^ digits`, the rendered
string has exactly `digits` characters, the result is a success, and the
`OATH_PRINTF_ERROR` branch of `oath_hotp_generate` is unreachable. -/
theorem C9_printf_error_unreachable
    (hmac : List Nat → List Nat → Option (List Nat)) (secret : List Nat)
    (m digits : Nat) (hs : List Nat)
    (hh : hmac secret (bigEndian64 m) = some hs)
    (hd : digits = 6 ∨ digits = 7 ∨ digits = 8) :
    dynamicTruncate hs % 10 ^ digits < 10 ^ digits ∧
    (∃ s, oath_hotp_generate hmac secret m digits = .ok s ∧ s.length = digits) ∧
    oath_hotp_generate hmac secret m digits ≠ .error .printfError := by
  obtain ⟨hok, hlen⟩ := oath_hotp_generate_ok hh hd
  refine ⟨Nat.mod_lt _ (by rcases hd with h | h | h <;> subst h <;> norm_num),
    ⟨_, hok, hlen⟩, ?_⟩
  rw [hok]
  simp

/-- Witness for C9 at a concrete input: with the digest `dOneDigest` and
digits 8 the generated OTP is `"00000001"`, not a printf error. -/
theorem C9_printf_error_unreachable_witness :
    oath_hotp_generate (fun _ _ => some dOneDigest) [] 3 8 = .ok "00000001" ∧
    oath_hotp_generate (fun _ _ => some dOneDigest) [] 3 8 ≠ .error .printfError := by
  have h := C9_printf_error_unreachable (fun _ _ => some dOneDigest) [] 3 8
    dOneDigest rfl (by norm_num)
  refine ⟨by decide, h.2.2⟩

/-! ## Lemmas about the validation loop -/

theorem hvcLoop_found (gen : Nat → Except OathErr String) (cmp : String → Bool)
    (start window : Nat) (hw : window < 2 ^ 32) (k : Nat) (hk : k ≤ window)
    (hbefore : ∀ i, i < k → ∃ o, gen (start + i) = .ok o ∧ cmp o = false)
    (hfound : ∃ o, gen (start + k) = .ok o ∧ cmp o = true) :
    ∀ fuel iter, iter ≤ k → k - iter < fuel →
      hvcLoop gen cmp start window iter fuel = some (.ok k) := by
  intro fuel
  induction fuel with
  | zero => intro iter _ h; omega
  | succ fuel ih =>
    intro iter hik hfk
    by_cases heq : iter = k
    · subst heq
      obtain ⟨o, ho, hc⟩ := hfound
      simp [hvcLoop, ho, hc]
    · have hik' : iter < k := lt_of_le_of_ne hik heq
      obtain ⟨o, ho, hc⟩ := hbefore iter hik'
      have hiw : iter ≠ window := by omega
      have hmod : (iter + 1) % 2 ^ 32 = iter + 1 := Nat.mod_eq_of_lt (by omega)
      rw [hvcLoop]
      rw [ho]
      simp only [hc, Bool.false_eq_true, if_false, hiw, if_false, hmod]
      exact ih (iter + 1) (by omega) (by omega)

theorem hvcLoop_nomatch (gen : Nat → Except OathErr String) (cmp : String → Bool)
    (start window : Nat) (hw : window < 2 ^ 32)
    (hall : ∀ i, i ≤ window → ∃ o, gen (start + i) = .ok o ∧ cmp o = false) :
    ∀ fuel iter, iter ≤ window → window - iter < fuel →
      hvcLoop gen cmp start window iter fuel = some (.error .invalidOtp) := by
  intro fuel
  induction fuel with
  | zero => intro iter _ h; omega
  | succ fuel ih =>
    intro iter hiw hfw
    obtain ⟨o, ho, hc⟩ := hall iter hiw
    by_cases heq : iter = window
    · subst heq
      simp [hvcLoop, ho, hc]
    · have hmod : (iter + 1) % 2 ^ 32 = iter + 1 := Nat.mod_eq_of_lt (by omega)
      rw [hvcLoop]
      rw [ho]
      simp only [hc, Bool.false_eq_true, if_false, heq, if_false, hmod]
      exact ih (iter + 1) (by omega) (by omega)

theorem hvcLoop_error (gen : Nat → Except OathErr String) (cmp : String → Bool)
    (start window : Nat) (e : OathErr) (hw : window < 2 ^ 32) (j : Nat)
    (hj : j ≤ window)
    (hbefore : ∀ i, i < j → ∃ o, gen (start + i) = .ok o ∧ cmp o = false)
    (herr : gen (start + j) = .error e) :
    ∀ fuel iter, iter ≤ j → j - iter < fuel →
      hvcLoop gen cmp start window iter fuel = some (.error e) := by
  intro fuel
  induction fuel with
  | zero => intro iter _ h; omega
  | succ fuel ih =>
    intro iter hij hfj
    by_cases heq : iter = j
    · subst heq
      simp [hvcLoop, herr]
    · have hij' : iter < j := lt_of_le_of_ne hij heq
      obtain ⟨o, ho, hc⟩ := hbefore iter hij'
      have hiw : iter ≠ window := by omega
      have hmod : (iter + 1) % 2 ^ 32 = iter + 1 := Nat.mod_eq_of_lt (by omega)
      rw [hvcLoop]
      rw [ho]
      simp only [hc, Bool.false_eq_true, if_false, hiw, if_false, hmod]
      exact ih (iter + 1) (by omega) (by omega)

/-- C4 (amended): for every window below `2 ^ 32` (the loop counter `iter`
is a 32-bit `unsigned`), the validator tests the counters
`start_moving_factor + iter` for `iter = 0` up to `window` inclusive in
increasing order and returns the first `iter` whose generated OTP the
comparator accepts; if no iteration matches it returns `OATH_INVALID_OTP`
(so `window = 0` checks exactly the start counter); and any generation
failure aborts the search immediately, propagating that error.  For
`window ≥ 2 ^ 32` the 32-bit counter wraps before reaching `window`, and a
search without an early match does not terminate (see the counterexample). -/
theorem C4_validate_callback_search
    (hmac : List Nat → List Nat → Option (List Nat)) (secret : List Nat)
    (start window digits : Nat) (cmp : String → Bool) (hw : window < 2 ^ 32) :
    (∀ k, k ≤ window →
      (∀ i, i < k → ∃ o, oath_hotp_generate hmac secret (start + i) digits = .ok o ∧
        cmp o = false) →
      (∃ o, oath_hotp_generate hmac secret (start + k) digits = .ok o ∧
        cmp o = true) →
      oath_hotp_validate_callback hmac secret start window digits cmp =
        some (.ok k)) ∧
    ((∀ i, i ≤ window → ∃ o, oath_hotp_generate hmac secret (start + i) digits = .ok o ∧
        cmp o = false) →
      oath_hotp_validate_callback hmac secret start window digits cmp =
        some (.error .invalidOtp)) ∧
    (∀ j e, j ≤ window →
      (∀ i, i < j → ∃ o, oath_hotp_generate hmac secret (start + i) digits = .ok o ∧
        cmp o = false) →
      oath_hotp_generate hmac secret (start + j) digits = .error e →
      oath_hotp_validate_callback hmac secret start window digits cmp =
        some (.error e)) := by
  refine ⟨?_, ?_, ?_⟩
  · intro k hk hbefore hfound
    exact hvcLoop_found _ cmp start window hw k hk hbefore hfound
      (window + 1) 0 (by omega) (by omega)
  · intro hall
    exact hvcLoop_nomatch _ cmp start window hw hall (window + 1) 0
      (by omega) (by omega)
  · intro j e hj hbefore herr
    exact hvcLoop_error _ cmp start window e hw j hj hbefore herr
      (window + 1) 0 (by omega) (by omega)

/-- Witness for C4 at a concrete input: with the counter-distinguishing HMAC
`hmacCtr`, searching window 3 from counter 0 for the OTP generated at
counter 2 returns offset 2. -/
theorem C4_validate_callback_search_witness :
    oath_hotp_validate_callback hmacCtr [] 0 3 6 (fun s => s == "000002") =
      some (.ok 2) := by
  refine (C4_validate_callback_search hmacCtr [] 0 3 6 _ (by norm_num)).1
    2 (by norm_num) ?_ ?_
  · intro i hi
    interval_cases i
    · exact ⟨"000000", by decide, by decide⟩
    · exact ⟨"000001", by decide, by decide⟩
  · exact ⟨"000002", by decide, by decide⟩

theorem bigEndian64_eq (m : Nat) :
    bigEndian64 m = [m / 2 ^ 56 % 256, m / 2 ^ 48 % 256, m / 2 ^ 40 % 256,
      m / 2 ^ 32 % 256, m / 2 ^ 24 % 256, m / 2 ^ 16 % 256, m / 2 ^ 8 % 256,
      m / 2 ^ 0 % 256] := rfl

theorem hmacCE_small {iter : Nat} (h : iter < 2 ^ 32) :
    hmacCE [] (bigEndian64 iter) = some (List.replicate 20 0) := by
  unfold hmacCE
  rw [bigEndian64_eq]
  have hb : iter / 2 ^ 32 % 256 = 0 := by
    rw [Nat.div_eq_of_lt h]
  norm_num at hb
  simp [hb]

theorem genCE_small {iter : Nat} (h : iter < 2 ^ 32) :
    oath_hotp_generate hmacCE [] iter 6 = .ok "000000" := by
  unfold oath_hotp_generate
  rw [hmacCE_small h]
  decide

theorem hvcLoopCE_none :
    ∀ fuel iter, iter < 2 ^ 32 →
      hvcLoop (fun c => oath_hotp_generate hmacCE [] c 6)
        (fun s => s == "000001") 0 (2 ^ 32) iter fuel = none := by
  intro fuel
  induction fuel with
  | zero => intro iter _; rfl
  | succ fuel ih =>
    intro iter hiter
    rw [hvcLoop]
    have hg : oath_hotp_generate hmacCE [] (0 + iter) 6 = .ok "000000" := by
      rw [Nat.zero_add]
      exact genCE_small hiter
    rw [hg]
    have hne : iter ≠ 2 ^ 32 := by omega
    simp only [beq_iff_eq, if_false, hne, reduceIte]
    exact ih ((iter + 1) % 2 ^ 32) (Nat.mod_lt _ (by norm_num))

/-- Counterexample for C4 as stated: take `window = 2 ^ 32` and an HMAC under
which only the OTP generated at counter `start + window = 2 ^ 32` matches the
comparator.  The claim says the validator tests `iter = 0` up to `window`
inclusive and returns the first (here: the only) matching offset, which takes
at most `window + 1` generate calls — but because the 32-bit loop counter
wraps before reaching `2 ^ 32`, the loop has still not returned after
`window + 1` iterations (the model yields `none`), so the claimed result
`some (.ok (2 ^ 32))` is not produced. -/
theorem C4_counterexample :
    oath_hotp_validate_callback hmacCE [] 0 (2 ^ 32) 6 (fun s => s == "000001")
      = none ∧
    oath_hotp_generate hmacCE [] (0 + 2 ^ 32) 6 = .ok "000001" ∧
    ((fun s => s == "000001") "000001") = true ∧
    oath_hotp_validate_callback hmacCE [] 0 (2 ^ 32) 6 (fun s => s == "000001")
      ≠ some (.ok (2 ^ 32)) := by
  have h1 : oath_hotp_validate_callback hmacCE [] 0 (2 ^ 32) 6
      (fun s => s == "000001") = none := by
    unfold oath_hotp_validate_callback
    exact hvcLoopCE_none (2 ^ 32 + 1) 0 (by norm_num)
  refine ⟨h1, ?_, rfl, by rw [h1]; simp⟩
  have hb : hmacCE [] (bigEndian64 (0 + 2 ^ 32)) = some dOneDigest := by
    rw [Nat.zero_add, bigEndian64_eq]
    norm_num [hmacCE]
  unfold oath_hotp_generate
  rw [hb]
  decide

/-- C5 (amended): for `window < 2 ^ 32`, a total MAC, and digits in
{6, 7, 8}: validating the OTP generated at counter `c + k` (for `0 ≤ k ≤
window`), starting at `c`, returns `k` provided no earlier counter in the
window generates the same OTP string; and validating an OTP generated at
counter `c + window + 1` returns `OATH_INVALID_OTP` provided that OTP differs
from every OTP generated inside the window.  (Without the distinctness
provisos the statement is false: the validator returns the first colliding
offset — see the counterexample.) -/
theorem C5_roundtrip (hmac : List Nat → List Nat → Option (List Nat))
    (secret : List Nat) (c window digits : Nat) (hw : window < 2 ^ 32)
    (htot : ∀ msg, (hmac secret msg).isSome = true)
    (hd : digits = 6 ∨ digits = 7 ∨ digits = 8) :
    (∀ k s, k ≤ window →
      oath_hotp_generate hmac secret (c + k) digits = .ok s →
      (∀ i, i < k → oath_hotp_generate hmac secret (c + i) digits ≠ .ok s) →
      oath_hotp_validate hmac secret c window s = some (.ok k)) ∧
    (∀ s, oath_hotp_generate hmac secret (c + window + 1) digits = .ok s →
      (∀ i, i ≤ window → oath_hotp_generate hmac secret (c + i) digits ≠ .ok s) →
      oath_hotp_validate hmac secret c window s = some (.error .invalidOtp)) := by
  have hgen : ∀ n, ∃ o, oath_hotp_generate hmac secret n digits = .ok o ∧
      o.length = digits := by
    intro n
    obtain ⟨hs, hh⟩ := Option.isSome_iff_exists.mp (htot (bigEndian64 n))
    obtain ⟨hok, hlen⟩ := oath_hotp_generate_ok hh hd
    exact ⟨_, hok, hlen⟩
  have hdig : digits < 2 ^ 32 := by
    rcases hd with h | h | h <;> subst h <;> norm_num
  constructor
  · intro k s hk hks hdist
    have hslen : s.length = digits := by
      obtain ⟨o, ho, hol⟩ := hgen (c + k)
      rw [hks] at ho
      obtain rfl : s = o := by simpa using ho
      exact hol
    unfold oath_hotp_validate oath_hotp_validate_callback
    rw [hslen, Nat.mod_eq_of_lt hdig]
    refine hvcLoop_found _ _ c window hw k hk ?_ ⟨s, hks, by simp⟩
      (window + 1) 0 (by omega) (by omega)
    intro i hi
    obtain ⟨o, ho, hol⟩ := hgen (c + i)
    refine ⟨o, ho, ?_⟩
    have hne : s ≠ o := by
      intro h
      subst h
      exact hdist i hi ho
    simp [hne]
  · intro s hgs hall
    have hslen : s.length = digits := by
      obtain ⟨o, ho, hol⟩ := hgen (c + window + 1)
      rw [hgs] at ho
      obtain rfl : s = o := by simpa using ho
      exact hol
    unfold oath_hotp_validate oath_hotp_validate_callback
    rw [hslen, Nat.mod_eq_of_lt hdig]
    refine hvcLoop_nomatch _ _ c window hw ?_ (window + 1) 0 (by omega) (by omega)
    intro i hi
    obtain ⟨o, ho, hol⟩ := hgen (c + i)
    refine ⟨o, ho, ?_⟩
    have hne : s ≠ o := by
      intro h
      subst h
      exact hall i hi ho
    simp [hne]

/-- Counterexample for C5 as stated: under the constant HMAC `hmacZero`
every counter generates the OTP `"000000"`, so for `c = 0`, `window = 1`,
`k = 1` the OTP generated at counter `c + 1` validates at offset 0, not at
the claimed `k = 1` — earlier colliding counters win. -/
theorem C5_counterexample :
    oath_hotp_generate hmacZero [] (0 + 1) 6 = .ok "000000" ∧
    (1 : Nat) ≤ 1 ∧
    oath_hotp_validate hmacZero [] 0 1 "000000" = some (.ok 0) ∧
    some (Except.ok (ε := OathErr) (0 : Nat)) ≠ some (Except.ok (1 : Nat)) := by
  refine ⟨by decide, by norm_num, by decide, by decide⟩

/-- Witness for C5 at a concrete input: with the counter-distinguishing HMAC
`hmacCtr` (distinct OTPs on small counters), the OTP generated at counter
`0 + 1` validates at offset 1 in window 1 starting from counter 0. -/
theorem C5_roundtrip_witness :
    oath_hotp_validate hmacCtr [] 0 1 "000001" = some (.ok 1) := by
  refine (C5_roundtrip hmacCtr [] 0 1 6 (by norm_num) (fun _ => rfl)
    (by norm_num)).1 1 "000001" (by norm_num) (by decide) ?_
  intro i hi
  interval_cases i
  decide

/-- Under the all-zero HMAC every counter generates `"000000"` with six
digits. -/
theorem genZero6 (c : Nat) : oath_hotp_generate hmacZero [] c 6 = .ok "000000" :=
  rfl

/-- C10 (amended): `oath_hotp_validate` derives the digit count from
`strlen (otp)` converted to the `unsigned` parameter (i.e. reduced
`mod 2 ^ 32`) rather than taking it independently.  For every presented OTP
whose length is below `2 ^ 32` and not 6, 7 or 8, if the MAC succeeds on the
first probed counter, validation returns `OATH_INVALID_DIGITS` and no window
offset.  (For lengths of at least `2 ^ 32` the conversion truncates and the
claim fails — see the counterexample.) -/
theorem C10_strlen_digits (hmac : List Nat → List Nat → Option (List Nat))
    (secret : List Nat) (start window : Nat) (otp : String) (hs : List Nat)
    (hl32 : otp.length < 2 ^ 32)
    (hnd : ¬(otp.length = 6 ∨ otp.length = 7 ∨ otp.length = 8))
    (hh : hmac secret (bigEndian64 (start + 0)) = some hs) :
    oath_hotp_validate hmac secret start window otp =
      some (.error .invalidDigits) := by
  unfold oath_hotp_validate oath_hotp_validate_callback
  rw [hvcLoop]
  have hg : oath_hotp_generate hmac secret (start + 0) (otp.length % 2 ^ 32) =
      .error .invalidDigits := by
    apply oath_hotp_generate_bad_digits hh
    rw [Nat.mod_eq_of_lt hl32]
    exact hnd
  rw [hg]

/-- Witness for C10 at a concrete input: a presented OTP of length 5 yields
`OATH_INVALID_DIGITS`. -/
theorem C10_strlen_digits_witness :
    oath_hotp_validate hmacZero [] 0 7 "12345" = some (.error .invalidDigits) :=
  C10_strlen_digits hmacZero [] 0 7 "12345" (List.replicate 20 0)
    (by decide) (by decide) rfl

/-- Counterexample for C10 as stated: a presented OTP of length `2 ^ 32 + 6`
is not of length 6, 7 or 8, yet validation does not return
`OATH_INVALID_DIGITS`, because `strlen` is truncated to the 32-bit `unsigned`
digit count `6`: under the all-zero HMAC the search runs and ends with
`OATH_INVALID_OTP` instead. -/
theorem C10_counterexample :
    bigOtp.length = 2 ^ 32 + 6 ∧
    ¬(bigOtp.length = 6 ∨ bigOtp.length = 7 ∨ bigOtp.length = 8) ∧
    oath_hotp_validate hmacZero [] 0 0 bigOtp = some (.error .invalidOtp) ∧
    oath_hotp_validate hmacZero [] 0 0 bigOtp ≠ some (.error .invalidDigits) := by
  have hlen : bigOtp.length = 2 ^ 32 + 6 := by
    show (List.replicate (2 ^ 32 + 6) '0').length = 2 ^ 32 + 6
    exact List.length_replicate _ _
  have hne : bigOtp ≠ "000000" := by
    intro h
    have := congrArg String.length h
    rw [hlen, show ("000000" : String).length = 6 from rfl] at this
    norm_num at this
  have hval : oath_hotp_validate hmacZero [] 0 0 bigOtp =
      some (.error .invalidOtp) := by
    unfold oath_hotp_validate oath_hotp_validate_callback
    have hdig : bigOtp.length % 2 ^ 32 = 6 := by
      rw [hlen]
      omega
    rw [hdig, hvcLoop, genZero6]
    simp [hne]
  refine ⟨hlen, by rw [hlen]; norm_num, hval, by rw [hval]; simp⟩

/-! ## Lemmas about the usersfile parser and updater -/

theorem parse_usersfile_cons (E : UfEnv) (username otp : String) (window : Nat)
    (passwd : Option String) (wantLast : Bool) (line : String)
    (rest : List String) :
    parse_usersfile E username otp window passwd wantLast (line :: rest) =
      match parseTokens E username otp window passwd wantLast (ufTokens line) with
      | .skip => parse_usersfile E username otp window passwd wantLast rest
      | .stop rc ts mf => ⟨rc, ts, mf.getD 0⟩ := rfl

theorem parse_usersfile_append_skips (E : UfEnv) (username otp : String)
    (window : Nat) (passwd : Option String) (wantLast : Bool)
    (pre rest : List String)
    (hpre : ∀ l ∈ pre,
      parseTokens E username otp window passwd wantLast (ufTokens l) = .skip) :
    parse_usersfile E username otp window passwd wantLast (pre ++ rest) =
      parse_usersfile E username otp window passwd wantLast rest := by
  induction pre with
  | nil => rfl
  | cons l pre ih =>
    rw [List.cons_append, parse_usersfile_cons,
      hpre l (List.mem_cons_self l pre)]
    exact ih (fun l' hl' => hpre l' (List.mem_cons_of_mem l hl'))

theorem parse_usersfile_all_skip (E : UfEnv) (username otp : String)
    (window : Nat) (passwd : Option String) (wantLast : Bool)
    (file : List String)
    (hfile : ∀ l ∈ file,
      parseTokens E username otp window passwd wantLast (ufTokens l) = .skip) :
    parse_usersfile E username otp window passwd wantLast file
      = ⟨.unknownUser, none, 0⟩ := by
  have h := parse_usersfile_append_skips E username otp window passwd wantLast
    file [] hfile
  rw [List.append_nil] at h
  exact h

/-- C8 (amended): with no password checking, the parser's record is the first
line whose type token is recognized, whose username token equals the target
exactly, and which still carries a secret token; a line passing the type and
username tests but missing the subsequent mandatory tokens is skipped like a
mismatch, not stopped at.  Scanning stops at the first line the loop body
returns on; if every line is skipped the result is `HOTP_UNKNOWN_USER`.  On
the record line, a present moving-factor token not fully consumed by
`strtoull` yields `HOTP_INVALID_COUNTER`, while an absent moving factor
defaults to 0. -/
theorem C8_record_selection (E : UfEnv) (username otp : String) (window : Nat)
    (wantLast : Bool) :
    (∀ pre line post rc ts mf,
      (∀ l ∈ pre,
        parseTokens E username otp window none wantLast (ufTokens l) = .skip) →
      parseTokens E username otp window none wantLast (ufTokens line) =
        .stop rc ts mf →
      parse_usersfile E username otp window none wantLast (pre ++ line :: post)
        = ⟨rc, ts, mf.getD 0⟩) ∧
    (∀ file,
      (∀ l ∈ file,
        parseTokens E username otp window none wantLast (ufTokens l) = .skip) →
      parse_usersfile E username otp window none wantLast file
        = ⟨.unknownUser, none, 0⟩) ∧
    (∀ ty u, parseTokens E username otp window none wantLast [ty, u] = .skip) ∧
    (∀ ty u pw,
      parseTokens E username otp window none wantLast [ty, u, pw] = .skip) ∧
    (∀ ty pw key mfTok rest sec, parse_type ty ≠ 0 → E.hex2bin key = .ok sec →
      (strtoull10 mfTok).2 ≠ "" →
      parseTokens E username otp window none wantLast
        (ty :: username :: pw :: key :: mfTok :: rest)
        = .stop .invalidCounter none none) ∧
    (∀ ty pw key sec, parse_type ty ≠ 0 → E.hex2bin key = .ok sec →
      parseTokens E username otp window none wantLast [ty, username, pw, key] =
        (match E.validate sec 0 window otp with
         | .error e => .stop e none none
         | .ok off => .stop .ok none (some ((0 + off) % 2 ^ 64)))) := by
  refine ⟨?_, ?_, ?_, ?_, ?_, ?_⟩
  · intro pre line post rc ts mf hpre hstop
    rw [parse_usersfile_append_skips E username otp window none wantLast pre
      (line :: post) hpre, parse_usersfile_cons, hstop]
  · exact parse_usersfile_all_skip E username otp window none wantLast
  · intro ty u
    by_cases h1 : parse_type ty = 0 <;> by_cases h2 : u = username <;>
      simp [parseTokens, parseAfterPasswd, h1, h2]
  · intro ty u pw
    by_cases h1 : parse_type ty = 0 <;> by_cases h2 : u = username <;>
      simp [parseTokens, parseAfterPasswd, h1, h2]
  · intro ty pw key mfTok rest sec hty hhex hbad
    simp [parseTokens, parseAfterPasswd, hty, hhex, hbad]
  · intro ty pw key sec hty hhex
    simp [parseTokens, parseAfterPasswd, parseTail, hty, hhex]

/-- Counterexample for C8 as stated: the single line `"HOTP alice\n"` has a
recognized type token and a username token equal to the target, so by the
claim scanning stops there and the line is the record (with moving factor
defaulting to 0 and, under a validator that reports a match at offset 0, an
`HOTP_OK` result).  The code instead skips the line — the secret token is
missing — and returns `HOTP_UNKNOWN_USER`. -/
theorem C8_counterexample :
    parse_type "HOTP" ≠ 0 ∧
    ufTokens "HOTP alice\n" = ["HOTP", "alice"] ∧
    parse_usersfile Eok "alice" "123456" 0 none true ["HOTP alice\n"]
      = ⟨.unknownUser, none, 0⟩ := by
  refine ⟨by decide, by decide, by decide⟩

/-- Witness for C8 at a concrete input: a comment line is skipped, and the
record line carrying the malformed moving-factor token `"12a"` stops the
scan with `HOTP_INVALID_COUNTER`. -/
theorem C8_record_selection_witness :
    parse_usersfile Eok "alice" "123456" 0 none true
      ["# users\n", "HOTP\talice\t-\tAB\t12a\n"]
      = ⟨.invalidCounter, none, 0⟩ := by
  have h := (C8_record_selection Eok "alice" "123456" 0 true).1
    ["# users\n"] "HOTP\talice\t-\tAB\t12a\n" [] .invalidCounter none none
    (by decide) (by decide)
  simpa using h

/-- C6: for every credential file whose record line for the given username
carries a last-OTP field equal to the presented `otp` (with well-formed
preceding fields and timestamp), authentication returns `HOTP_REPLAYED_OTP`
together with the record's stored timestamp (the `mktime` image of the
timestamp token), the stored moving factor is not advanced and the file is
not rewritten: the resulting file equals the input file, for every validator,
update environment and current-time value — neither is consulted. -/
theorem C6_replay (E : UfEnv) (env : UpdateEnv) (nowTs : Option String)
    (pre post : List String) (line username otp : String) (window : Nat)
    (ty pw key mfTok tsTok : String) (sec : List Nat)
    (hpre : ∀ l ∈ pre,
      parseTokens E username otp window none true (ufTokens l) = .skip)
    (htoks : ufTokens line = [ty, username, pw, key, mfTok, otp, tsTok])
    (hty : parse_type ty ≠ 0)
    (hhex : E.hex2bin key = .ok sec)
    (hmf : (strtoull10 mfTok).2 = "")
    (hstrp : E.strp tsTok = true)
    (hmkt : E.mkt tsTok ≠ -1) :
    hotp_authenticate_usersfile E env nowTs (some (pre ++ line :: post))
        username otp window none true
      = (.replayedOtp, some (E.mkt tsTok), some (pre ++ line :: post)) := by
  have hparse : parse_usersfile E username otp window none true
      (pre ++ line :: post) = ⟨.replayedOtp, some (E.mkt tsTok), 0⟩ := by
    rw [parse_usersfile_append_skips E username otp window none true pre
      (line :: post) hpre, parse_usersfile_cons, htoks]
    simp [parseTokens, parseAfterPasswd, parseTail, hty, hhex, hmf, hstrp, hmkt]
  simp [hotp_authenticate_usersfile, hparse]

/-- Witness for C6 at a concrete input: a record whose last-OTP field equals
the presented OTP `"995224"` yields `HOTP_REPLAYED_OTP` with the stored
timestamp value 1577836800, leaving the file unchanged. -/
theorem C6_replay_witness :
    hotp_authenticate_usersfile Erep envAllOk (some "2025-01-01T00:00:00L")
        (some ["# users\n", "HOTP\talice\t-\tAB\t7\t995224\t2020-01-01T00:00:00L\n"])
        "alice" "995224" 3 none true
      = (.replayedOtp, some 1577836800,
          some ["# users\n", "HOTP\talice\t-\tAB\t7\t995224\t2020-01-01T00:00:00L\n"]) := by
  have h := C6_replay Erep envAllOk (some "2025-01-01T00:00:00L")
    ["# users\n"] [] "HOTP\talice\t-\tAB\t7\t995224\t2020-01-01T00:00:00L\n"
    "alice" "995224" 3 "HOTP" "-" "AB" "7" "2020-01-01T00:00:00L" [171]
    (by decide) (by decide) (by decide) rfl (by decide) (by decide) (by decide)
  simpa using h

/-- C7 (amended): on a successful authentication the moving factor stored in
the rewritten record is `(start_moving_factor + offset) mod 2 ^ 64` — the
`uint64_t` sum of the record's starting moving factor and the offset at
which the validator found the match — and the rewriter prints exactly that
value into the replaced record.  Whenever the sum does not exceed the 64-bit
range the stored value equals `start_moving_factor + offset` and hence never
decreases; with a stored counter at `2 ^ 64 - 1` and a positive offset the
sum wraps (see the counterexample). -/
theorem C7_moving_factor_advance (E : UfEnv) (username otp : String)
    (window : Nat) (wantLast : Bool) :
    (∀ ty pw key mfTok sec v off, parse_type ty ≠ 0 →
      E.hex2bin key = .ok sec → strtoull10 mfTok = (v, "") →
      E.validate sec v window otp = .ok off →
      parseTokens E username otp window none wantLast
        [ty, username, pw, key, mfTok]
        = .stop .ok none (some ((v + off) % 2 ^ 64))) ∧
    (∀ ts nmf line ty r2, ufTokens line = ty :: username :: r2 →
      update_usersfile2 username otp ts nmf none [line]
        = (.ok, [formatRecord ty username (r2.getD 0 "-") (r2.getD 1 "-")
            nmf otp ts])) ∧
    (∀ v off : Nat, v + off < 2 ^ 64 →
      (v + off) % 2 ^ 64 = v + off ∧ v ≤ (v + off) % 2 ^ 64) := by
  refine ⟨?_, ?_, ?_⟩
  · intro ty pw key mfTok sec v off hty hhex hmf hval
    simp [parseTokens, parseAfterPasswd, parseTail, hty, hhex, hmf, hval]
  · intro ts nmf line ty r2 htoks
    simp [update_usersfile2, htoks]
  · intro v off h
    constructor
    · exact Nat.mod_eq_of_lt h
    · rw [Nat.mod_eq_of_lt h]
      omega

/-- Counterexample for C7 as stated: a record whose stored moving factor is
`2 ^ 64 - 1 = 18446744073709551615` and whose validator matches at offset 1
stores the wrapped `uint64_t` value `0`, not the claimed
`18446744073709551615 + 1`, so the per-user moving factor decreases. -/
theorem C7_counterexample :
    parse_usersfile Eoff1 "alice" "123456" 1 none true
        ["HOTP\talice\t-\tAB\t18446744073709551615\n"] = ⟨.ok, none, 0⟩ ∧
    (0 : Nat) ≠ 18446744073709551615 + 1 ∧
    (0 : Nat) < 18446744073709551615 := by
  refine ⟨by decide, by decide, by decide⟩

/-- Witness for C7 at a concrete input: starting moving factor 5 and match
offset 0 store moving factor 5, and the rewriter prints it into the record. -/
theorem C7_moving_factor_advance_witness :
    parseTokens Eok "alice" "123456" 3 none true ["HOTP", "alice", "-", "AB", "5"]
      = .stop .ok none (some 5) ∧
    update_usersfile2 "alice" "123456" "2025-01-01T00:00:00L" 5 none
        ["HOTP\talice\t-\tAB\t5\n"]
      = (.ok, ["HOTP\talice\t-\tAB\t5\t123456\t2025-01-01T00:00:00L\n"]) := by
  have h := C7_moving_factor_advance Eok "alice" "123456" 3 true
  constructor
  · have h1 := h.1 "HOTP" "-" "AB" "5" [171] 5 0 (by decide) rfl (by decide) rfl
    simpa using h1
  · have h2 := h.2.1 "2025-01-01T00:00:00L" 5 "HOTP\talice\t-\tAB\t5\n"
      "HOTP" ["-", "AB", "5"] (by decide)
    rw [h2]
    decide

theorem update_usersfile2_nofault (username otp ts : String) (nmf : Nat) :
    ∀ lines, update_usersfile2 username otp ts nmf none lines =
      (.ok, lines.filterMap (update2Line username otp ts nmf)) := by
  intro lines
  induction lines with
  | nil => rfl
  | cons line rest ih =>
    rw [update_usersfile2]
    cases h : ufTokens line with
    | nil =>
      simp only [List.filterMap_cons, update2Line, h, ih]
    | cons ty ltoks =>
      cases ltoks with
      | nil =>
        simp only [List.filterMap_cons, update2Line, h, ih]
      | cons userTok ltoks2 =>
        by_cases hu : userTok = username
        · subst hu
          simp [List.filterMap_cons, update2Line, h, ih]
        · simp [List.filterMap_cons, update2Line, h, ih, hu]

/-- C2 (amended): on a fault-free rewrite, `update_usersfile2` maps every
line through `update2Line`: lines with no tokens (blank lines) are dropped
from the output, lines with a single token or whose second token differs
from the username are reproduced byte-for-byte in their original order, and
every line whose second token equals the username — regardless of its type
token, and including additional lines mentioning the same username — is
replaced by the freshly formatted record
`type \t username \t password-or-dash \t secret-or-dash \t newMovingFactor
\t newOtp \t newTimestamp`. -/
theorem C2_rewrite_frame (username otp ts : String) (nmf : Nat) :
    (∀ lines, update_usersfile2 username otp ts nmf none lines =
      (.ok, lines.filterMap (update2Line username otp ts nmf))) ∧
    (∀ line, ufTokens line = [] →
      update2Line username otp ts nmf line = none) ∧
    (∀ line ty, ufTokens line = [ty] →
      update2Line username otp ts nmf line = some line) ∧
    (∀ line ty u r2, ufTokens line = ty :: u :: r2 → u ≠ username →
      update2Line username otp ts nmf line = some line) ∧
    (∀ line ty r2, ufTokens line = ty :: username :: r2 →
      update2Line username otp ts nmf line
        = some (formatRecord ty username (r2.getD 0 "-") (r2.getD 1 "-")
            nmf otp ts)) := by
  refine ⟨update_usersfile2_nofault username otp ts nmf, ?_, ?_, ?_, ?_⟩
  · intro line h
    simp [update2Line, h]
  · intro line ty h
    simp [update2Line, h]
  · intro line ty u r2 h hu
    simp [update2Line, h, hu]
  · intro line ty r2 h
    simp [update2Line, h]

/-- Counterexample for C2 as stated: a successful rewrite on the two-line
file `["\n", record]` produces a single line — the blank line is dropped,
not reproduced byte-for-byte.  (The C loop `continue`s without copying when
`strtok_r` finds no token.) -/
theorem C2_counterexample :
    update_usersfile2 "alice" "111111" "2025-01-01T00:00:00L" 1 none
        ["\n", "HOTP\talice\t-\tAB\t0\n"]
      = (.ok, ["HOTP\talice\t-\tAB\t1\t111111\t2025-01-01T00:00:00L\n"]) ∧
    ("\n" : String) ∉
      ["HOTP\talice\t-\tAB\t1\t111111\t2025-01-01T00:00:00L\n"] := by
  refine ⟨by decide, by decide⟩

/-- Witness for C2 at a concrete input: a non-matching line is copied
verbatim and a matching one is replaced. -/
theorem C2_rewrite_frame_witness :
    update_usersfile2 "alice" "222222" "2025-01-01T00:00:00L" 2 none
        ["HOTP\tbob\t-\tCD\t9\n", "FOO\talice\tsecretpw\tAB\t0\n"]
      = (.ok, ["HOTP\tbob\t-\tCD\t9\n",
          "FOO\talice\tsecretpw\tAB\t2\t222222\t2025-01-01T00:00:00L\n"]) := by
  rw [(C2_rewrite_frame "alice" "222222" "2025-01-01T00:00:00L" 2).1]
  decide

/-- C1 (code bug evaluated): an authentication run in which the first stream
write of the rewrite fails returns `HOTP_PRINTF_ERROR`, yet the live
credential file has been replaced by the partially written output (here:
truncated to empty), because `update_usersfile` performs the
`rename (newfilename, usersfile)` unconditionally, even when
`update_usersfile2` failed.  This contradicts the claim that any error other
than OK/ReplayedOtp (the rename/unlink double failure aside) leaves the file
content unchanged. -/
theorem C1_printf_error_truncates_live_file :
    hotp_authenticate_usersfile Eok envW0 (some "2025-01-01T00:00:00L")
        (some ["HOTP\tbob\t-\tAB\t0\n", "HOTP\talice\t-\tAB\t5\n"])
        "alice" "755224" 1 none true
      = (.printfError, none, some []) ∧
    (some ([] : List String)
      ≠ some ["HOTP\tbob\t-\tAB\t0\n", "HOTP\talice\t-\tAB\t5\n"]) ∧
    HotpRc.printfError ≠ HotpRc.ok ∧ HotpRc.printfError ≠ HotpRc.replayedOtp ∧
    HotpRc.printfError ≠ HotpRc.fileUnlinkError := by
  refine ⟨by decide, by decide, by decide, by decide, by decide⟩
